import Mathlib

/-!
Verification development for the TaintMini static taint-analysis engine.

The definitions below are shallow embeddings of the Python sources:
  - `src/taint_mini/taintmini.py` (`filter_results`),
  - `src/main.py` (CLI entry point),
  - `src/taint_mini/wxjs.py` (`handle_data_child_node`),
  - `src/pdg_js/build_pdg.py` (`get_data_flow`),
  - `src/pdg_js/node.py` (dependency registration, `set_value` truncation),
  - `src/pdg_js/control_flow.py` (statement/control edge builders),
  - `src/pdg_js/data_flow.py` (scope handling, `update_expr_df`),
  - `src/pdg_js/js_operators.py` (`compute_operators`, `get_node_computed_value`).
Each definition carries a comment pointing to the function it was translated
from.  Theorems at the end of the file settle the specification claims.
-/

namespace TaintMini

/-! ## taintmini.py: `filter_results` (lines 10-43) -/

/-- One row of the per-page `results` list: the dictionaries appended by
`wxjs.handle_data_child_node` carry keys `method`, `ident`, `source`, `sink`. -/
structure Flow where
  method : String
  ident : String
  source : String
  sink : String
deriving DecidableEq, Repr

/-- The JSON config: keys `sources` / `sinks` are optional lists of strings.
`none` models an absent key. -/
structure Config where
  sources : Option (List String)
  sinks : Option (List String)

/-- Python `"sources" not in config or len(config["sources"]) == 0`. -/
def Config.noSources (c : Config) : Bool :=
  match c.sources with
  | none => true
  | some l => l.isEmpty

/-- Python `"sinks" not in config or len(config["sinks"]) == 0`. -/
def Config.noSinks (c : Config) : Bool :=
  match c.sinks with
  | none => true
  | some l => l.isEmpty

/-- Python substring test `needle in hay` on strings. -/
def strContains (hay needle : String) : Bool :=
  decide (needle.toList <:+: hay.toList)

/-- The exception `filter_results` can raise: taintmini.py line 32 reads
`config["sinks"]` inside the "no sink filter" branch, which is a `KeyError`
when the `sinks` key is absent. -/
inductive DictErr where
  | keyError
deriving DecidableEq, Repr

/-- The body of the per-flow `if` ladder of `filter_results` (taintmini.py
lines 20-39): the list of copies of `flow` appended for one flow, or the
`KeyError` escaping from line 32.  Note that when both the plain
source/sink condition and the `[double_binding]` condition hold, Python
appends the flow twice. -/
def filter_flow (config : Config) (flow : Flow) : Except DictErr (List Flow) :=
  match config.sources, config.sinks with
  | some sources, some sinks =>
    if sources.isEmpty then
      -- `"sources" in config and len(config["sources"]) > 0` is false:
      -- fall to the sink-only branch (lines 34-39)
      if sinks.isEmpty then .ok []
      else .ok (if flow.sink ∈ sinks then [flow] else [])
    else
      if sinks.isEmpty then
        -- no sink filter, just apply source filter (lines 30-33); the key
        -- is present, so line 32 tests membership in the *empty* sinks list
        .ok (if flow.sink ∈ sinks then [flow] else [])
      else
        -- apply source and sink filter (lines 23-29)
        .ok ((if flow.source ∈ sources ∧ flow.sink ∈ sinks then [flow] else []) ++
          (if ("[double_binding]") ∈ sources ∧ strContains flow.source ("[data from")
              ∧ flow.sink ∈ sinks then [flow] else []))
  | some sources, none =>
    if sources.isEmpty then .ok []  -- else-branch; `"sinks" in config` is false
    else .error .keyError           -- line 32: `config["sinks"]` raises KeyError
  | none, some sinks =>
    if sinks.isEmpty then .ok []
    else .ok (if flow.sink ∈ sinks then [flow] else [])
  | none, none => .ok []

/-- The inner loop `for flow in results[page]` of `filter_results`
(taintmini.py lines 19-39): the `filtered[page]` list built for one page,
with a `KeyError` aborting the whole loop. -/
def filter_page_flows (config : Config) (flows : List Flow) :
    Except DictErr (List Flow) :=
  flows.foldlM
    (fun acc flow => (filter_flow config flow).map (fun add => acc ++ add)) []

/-- `filter_results` (taintmini.py lines 10-43).  `results` is the per-page
dict, modelled as an association list in insertion order (Python dicts keep
insertion order and have unique keys).  A `KeyError` raised on line 32
propagates out of the function; otherwise the filtered map is returned. -/
def filter_results (results : List (String × List Flow)) (config : Config) :
    Except DictErr (List (String × List Flow)) :=
  if config.noSources ∧ config.noSinks then .ok results
  else
    results.foldlM
      (fun filtered page =>
        (filter_page_flows config page.2).map (fun flows =>
          -- `if len(filtered[page]) == 0: filtered.pop(page)`
          if flows.isEmpty then filtered else filtered ++ [(page.1, flows)]))
      []

/-! ## main.py: CLI exit status (lines 7-57) -/

/-- Exit behaviour of `main()` (main.py lines 33-57), as a function of the
I/O facts it branches on.  `configGiven` is `args.config is not None`;
`configExists` means `json.load(open(config_path))` does not raise
`FileNotFoundError` (the config is assumed to be valid JSON);
`inputExists` / `inputIsFile` are `os.path.exists` / `os.path.isfile`.
The returned integer is the process exit status: `exit(-1)` on a missing
config; every other path falls off the end of `main()` (including the
`print ("[main] error: invalid input path")` branch) and the interpreter
exits with status 0. -/
def main_exit (inputExists inputIsFile configGiven configExists : Bool) : Int :=
  if configGiven ∧ ¬configExists then -1
  else
    if inputExists then
      if inputIsFile then 0    -- index file: analyze each line, then return
      else 0                   -- directory: analyze single program, then return
    else 0                     -- `print` only; falls through, exit status 0

/-! ## wxjs.py: `handle_data_child_node` result recording (lines 310-371) -/

/-- The rows appended to the per-page `results` list by the final loop of
`handle_data_child_node` (wxjs.py lines 352-371).  `sources` holds the
resolved source names (first components of the `(source_name,
source_call_expr)` pairs); the guard `if source_name == sink: continue`
skips self-referential pairs.  The event-handling calls on lines 360-365
only touch the `events` list, never `results`. -/
def record_result_rows (method ident sink : String) (sources : List String) :
    List Flow :=
  sources.foldl
    (fun acc source_name =>
      if source_name = sink then acc
      else acc ++ [⟨method, ident, source_name, sink⟩])
    []

/-- `handle_data_child_node` (wxjs.py lines 310-371) reduced to the rows it
appends to `results`.  `hasDataDepChildren` is `len(node.data_dep_children)
> 0` (line 311), `sink` the dotted callee path resolved on lines 317-318,
`sources` the resolved source names (lines 327-332). -/
def handle_data_child_node (hasDataDepChildren : Bool) (method ident sink : String)
    (sources : List String) : List Flow :=
  if hasDataDepChildren then []            -- intermediate node, not handled
  else if sink = "" then []                -- no sink api resolved, passing
  else if sources.isEmpty then []          -- `if len(sources):` (line 340)
  else record_result_rows method ident sink sources

/-! ## build_pdg.py: `get_data_flow` failure skeleton (lines 82-205) -/

/-- Graph nodes: `node.py` `Node` reduced to name and children (the only
fields the failure-handling claims are about). -/
inductive PNode where
  | mk (name : String) (children : List PNode)

def PNode.name : PNode → String
  | .mk n _ => n

def PNode.children : PNode → List PNode
  | .mk _ c => c

/-- Outcome of the data-flow construction attempt inside
`with utility_df.Timeout(600):` (build_pdg.py lines 157-167). -/
inductive DFOutcome where
  | timeout
  | completed (pdg : PNode)

/-- The result skeleton of `get_data_flow` (build_pdg.py lines 82-205).
`parse` is the result of `build_ast.get_extended_ast` (`none` models a parse
failure); `run` stands for the AST → PDG pipeline guarded by the 600 s
alarm.  On a parse failure, line 205 returns `Node('ParsingError')`; on a
timeout, line 167 returns `Node('Program')`. -/
def get_data_flow (parse : Option PNode) (run : PNode → DFOutcome) : PNode :=
  match parse with
  | some ast =>
    match run ast with
    | .timeout => .mk ("Program") []        -- line 167
    | .completed pdg => pdg               -- line 203
  | none => .mk ("ParsingError") []         -- line 205

/-! ## node.py: kind taxonomy (lines 41-62) and dependency registration -/

/-- node.py line 48-51: `EPSILON`. -/
def EPSILON : List String :=
  ["BlockStatement", "DebuggerStatement", "EmptyStatement",
   "ExpressionStatement", "LabeledStatement", "ReturnStatement",
   "ThrowStatement", "WithStatement", "CatchClause", "VariableDeclaration",
   "FunctionDeclaration", "ClassDeclaration"]

/-- node.py line 53-55: `CONDITIONAL`. -/
def CONDITIONAL : List String :=
  ["DoWhileStatement", "ForStatement", "ForOfStatement", "ForInStatement",
   "IfStatement", "SwitchCase", "SwitchStatement", "TryStatement",
   "WhileStatement", "ConditionalExpression"]

/-- node.py line 57: `UNSTRUCTURED`. -/
def UNSTRUCTURED : List String := ["BreakStatement", "ContinueStatement"]

/-- node.py line 59: `STATEMENTS = EPSILON + CONDITIONAL + UNSTRUCTURED`. -/
def STATEMENTS : List String := EPSILON ++ CONDITIONAL ++ UNSTRUCTURED

/-- node.py line 60: `CALL_EXPR`. -/
def CALL_EXPR : List String :=
  ["CallExpression", "TaggedTemplateExpression", "NewExpression"]

/-- node.py line 62: `COMMENTS`. -/
def COMMENTS : List String := ["Line", "Block"]

/-- Which Python class a node of the given esprima `type` gets in
`build_ast.create_node` (build_ast.py lines 161-175), restricted to the
question "does the object have the `control_dep_parents` attribute?".
Only `Statement` and its subclasses (`FunctionDeclaration`,
`ReturnStatement`, both of whose names are in `STATEMENTS`) define it
(node.py lines 378-384); `FunctionExpression`/`ArrowFunctionExpression`,
`ValueExpr`, `Identifier` and plain `Node` do not. -/
def has_control_dep_parents (name : String) : Bool :=
  STATEMENTS.contains name

/-- AST node as used by the control-flow builder: a process-unique id, the
esprima `type` string, and the ordered children. -/
inductive GNode where
  | mk (id : Nat) (name : String) (children : List GNode)

def GNode.id : GNode → Nat
  | .mk i _ _ => i

def GNode.name : GNode → String
  | .mk _ n _ => n

def GNode.children : GNode → List GNode
  | .mk _ _ c => c

/-- node.py lines 129-132: `Node.is_comment`. -/
def GNode.is_comment (n : GNode) : Bool :=
  COMMENTS.contains n.name

/-- Control-dependency labels (`True` / `False` / `'e'` in the source). -/
inductive CLabel where
  | t
  | f
  | e
deriving DecidableEq, Repr

/-- The four edge stores of the PDG, flattened over node ids: an entry
`(u, v)` in `sdChildren` models a `Dependence` in `u.statement_dep_children`
with extremity `v`, and likewise for the other lists. -/
structure EdgeSt where
  sdChildren : List (Nat × Nat)
  sdParents : List (Nat × Nat)
  cdChildren : List (Nat × Nat × CLabel)
  cdParents : List (Nat × Nat × CLabel)
  ddChildren : List (Nat × Nat)
  ddParents : List (Nat × Nat)
  fpChildren : List (Nat × Nat)
  fpParents : List (Nat × Nat)
deriving DecidableEq, Repr

def EdgeSt.empty : EdgeSt := ⟨[], [], [], [], [], [], [], []⟩

/-- node.py lines 121-123: `Node.set_statement_dependency`. Appends to both
endpoints unconditionally (every node object has both lists). -/
def set_statement_dependency (st : EdgeSt) (self extremity : Nat) : EdgeSt :=
  { st with sdChildren := st.sdChildren ++ [(self, extremity)],
            sdParents := st.sdParents ++ [(self, extremity)] }

/-- node.py lines 386-391: `Statement.set_control_dependency`.  The forward
entry is always appended; the reverse append is wrapped in
`try ... except AttributeError`, so it only happens when the extremity's
class has a `control_dep_parents` attribute, i.e. when its kind is a
statement kind.  `extremityName` is the extremity's esprima type. -/
def set_control_dependency (st : EdgeSt) (self extremity : Nat)
    (extremityName : String) (label : CLabel) : EdgeSt :=
  { st with
    cdChildren := st.cdChildren ++ [(self, extremity, label)],
    cdParents :=
      if has_control_dep_parents extremityName then
        st.cdParents ++ [(self, extremity, label)]
      else st.cdParents }

/-- node.py lines 361-367: `Identifier.set_data_dependency` (without the
`set_provenance_dd` call, which only updates the separate provenance
relation).  The duplicate test `extremity not in [el.extremity for el in
self.data_dep_children]` is membership of the pair `(self, extremity)` in
the flattened child list. -/
def set_data_dependency (st : EdgeSt) (self extremity : Nat) : EdgeSt :=
  if (self, extremity) ∈ st.ddChildren then st
  else
    { st with ddChildren := st.ddChildren ++ [(self, extremity)],
              ddParents := st.ddParents ++ [(self, extremity)] }

/-- data_flow.py lines 801-818: `handle_function_params` (without the
`set_provenance` call).  The `hasattr`/`setattr` dance just materialises
the empty lists, which the state already holds; the duplicate test
`call_param.id not in [el.id for el in def_param.fun_param_children]` is
membership of the pair. -/
def handle_function_params (st : EdgeSt) (def_param call_param : Nat) : EdgeSt :=
  if (def_param, call_param) ∈ st.fpChildren then st
  else
    { st with fpChildren := st.fpChildren ++ [(def_param, call_param)],
              fpParents := st.fpParents ++ [(def_param, call_param)] }

/-! ## control_flow.py: statement / control edge builders -/

/-- control_flow.py lines 27-33: `link_expression`. -/
def link_expression (st : EdgeSt) (node node_parent : GNode) : EdgeSt :=
  if node.is_comment then st
  else set_statement_dependency st node_parent.id node.id

/-- control_flow.py lines 72-84: `if_cf`, used for both `IfStatement` and
`ConditionalExpression` nodes.  Python indexes `children[0]` directly and
would raise `IndexError` on a childless node; the adapter always emits the
test child, so that branch returns the state unchanged here. -/
def if_cf (st : EdgeSt) (node : GNode) : EdgeSt :=
  match node.children with
  | [] => st
  | c0 :: rest =>
    let st := link_expression st c0 node
    match rest with
    | [] => st
    | c1 :: rest2 =>
      let st := set_control_dependency st node.id c1.id c1.name .t
      match rest2 with
      | [] => st
      | c2 :: _ =>
        if c2.is_comment then st
        else set_control_dependency st node.id c2.id c2.name .f

/-- control_flow.py lines 134-151: `switch_case_cf`. -/
def switch_case_cf (st : EdgeSt) (node : GNode) (last : Bool) : EdgeSt :=
  match node.children with
  | [] => st                                       -- nb_child == 0: no branch taken
  | [only] => set_control_dependency st node.id only.id only.name .t
  | c0 :: c1 :: rest =>                            -- nb_child > 1
    if last then
      -- range(0, nb_child): every child becomes a `true` control dependency
      (c0 :: c1 :: rest).foldl
        (fun st c =>
          if c.is_comment then st
          else set_control_dependency st node.id c.id c.name .t) st
    else
      -- test is a statement dependency, the rest `true` control dependencies
      let st := link_expression st c0 node
      (c1 :: rest).foldl
        (fun st c =>
          if c.is_comment then st
          else set_control_dependency st node.id c.id c.name .t) st

/-- The loop of `switch_cf` over `range(2, len(switch_cases))`
(control_flow.py lines 121-130), written as recursion over the remaining
cases with accumulator `prev = switch_cases[i - 1]`.  The final case is
handled with `last=True` (line 130). -/
def switch_chain (st : EdgeSt) (node : GNode) (prev : GNode) :
    List GNode → EdgeSt
  | [] => st
  | c :: rest =>
    -- a comment case is skipped, but still becomes `switch_cases[i - 1]`
    -- for the next iteration (the loop index always advances)
    if c.is_comment then switch_chain st node c rest
    else
      let st := set_control_dependency st prev.id c.id c.name .f
      match rest with
      | [] => switch_case_cf st c true
      | _ :: _ => switch_chain (switch_case_cf st c false) node c rest

/-- control_flow.py lines 110-131: `switch_cf`.  `children[0]` is the
discriminant, the remaining children the cases.  As in `if_cf`, the
childless branch is unreachable for adapter output. -/
def switch_cf (st : EdgeSt) (node : GNode) : EdgeSt :=
  match node.children with
  | [] => st
  | d :: cases =>
    let st := link_expression st d node
    match cases with
    | [] => st                                 -- `switch(something) {}`
    | c1 :: rest =>
      let st := set_control_dependency st node.id c1.id c1.name .e
      -- line 120: the first case is always handled with `last=False`
      let st := switch_case_cf st c1 false
      switch_chain st node c1 rest

/-! ## scope.py / data_flow.py: the update-expression slice

The data-flow engine is embedded here for the situation the update-expression
claim is about: a single (global) scope, and an `UpdateExpression` whose
operand is a plain identifier.  Identifier nodes are represented by their
`(attributes['name'], id)` pair; the `set_value` / `set_code` copies done by
`set_data_dep` and the value-cell update done by
`pointer_analysis.compute_update_expression` (lines 217-224) are omitted
because they only assign `self.value` / `self.code` and never touch the
dependency lists. -/

/-- scope.py lines 24-35: the fields of `Scope` used by this slice.
`varList` is `var_list` (name and id of each last-writer identifier node),
`varIf2` the parallel `var_if2_list`. -/
structure ScopeSt where
  varList : List (String × Nat)
  varIf2 : List (Option (List Nat))
deriving DecidableEq, Repr

/-- scope.py lines 53-56: `Scope.add_var`. -/
def ScopeSt.add_var (s : ScopeSt) (v : String × Nat) : ScopeSt :=
  ⟨s.varList ++ [v], s.varIf2 ++ [none]⟩

/-- scope.py lines 64-67: `Scope.update_var`. -/
def ScopeSt.update_var (s : ScopeSt) (i : Nat) (v : String × Nat) : ScopeSt :=
  ⟨s.varList.set i v, s.varIf2.set i none⟩

/-- scope.py lines 72-75: `Scope.add_var_if2`. -/
def ScopeSt.add_var_if2 (s : ScopeSt) (i : Nat) (v : String × Nat) : ScopeSt :=
  ⟨s.varList, s.varIf2.set i (some ((s.varIf2.getD i none).getD [] ++ [v.2]))⟩

/-- scope.py lines 91-102: `Scope.get_pos_identifier` — the position of the
first variable in `var_list` with the same `attributes['name']`. -/
def ScopeSt.get_pos_identifier (s : ScopeSt) (v : String × Nat) : Option Nat :=
  s.varList.findIdx? (fun el => el.1 == v.1)

/-- Data-flow state: the edge lists plus a flag recording that an execution
left this slice (a data dependency whose origin carries a `fun` handler
makes `set_data_dep` re-traverse the function, data_flow.py lines 125-139).
All theorems below run with `stuck = false` throughout. -/
structure DFSt where
  edges : EdgeSt
  stuck : Bool
deriving DecidableEq, Repr

/-- data_flow.py lines 105-139: `set_data_dep`.  Draws the data dependency
(and copies value / code, omitted).  `isFun` tells whether the origin
identifier has a `fun` handler; that branch re-traverses the function and is
outside this slice. -/
def set_data_dep (isFun : Nat → Bool) (st : DFSt)
    (begin_data_dep identifier_node : Nat) : DFSt :=
  let st := { st with edges := set_data_dependency st.edges begin_data_dep identifier_node }
  if isFun begin_data_dep then { st with stuck := true } else st

/-- data_flow.py lines 142-167: `set_df` for a single scope.
`get_nearest_statement(var_list[i], var_if2_list[i])` returns
`var_if2_list[i]` whenever it is not `None` (data_flow.py lines 89-90), in
which case the code loops `set_data_dep` over the list entries; otherwise
one dependency is drawn from `var_list[i]` (the nearest statement is only
recorded inside the `Dependence`, not used by the claims). -/
def set_df (isFun : Nat → Bool) (st : DFSt) (scope : ScopeSt) (i : Nat)
    (identifier_node : Nat) : DFSt :=
  match scope.varIf2.getD i none with
  | some l => l.foldl (fun st x => set_data_dep isFun st x identifier_node) st
  | none => set_data_dep isFun st (scope.varList.getD i ("", 0)).2 identifier_node

/-- data_flow.py lines 231-247: `assignment_df` over a single scope.  When
the identifier is not found, only the unknown-variable set is touched
(lines 245-247) — no dependency edge is drawn either way, so the state is
returned unchanged there. -/
def assignment_df (isFun : Nat → Bool) (st : DFSt) (scope : ScopeSt)
    (identifier_node : String × Nat) (update : Bool) : DFSt × ScopeSt :=
  match scope.get_pos_identifier identifier_node with
  | some var_index =>
    let st := set_df isFun st scope var_index identifier_node.2
    let scope := if update then scope.update_var var_index identifier_node else scope
    (st, scope)
  | none => (st, scope)

/-- data_flow.py lines 250-304: `var_decl_df` specialised to a single
(global) scope: with `len(scopes) == 1` the chosen `current_scope` is the
global scope regardless of `entry` (line 272), and no `let_const` scope is
on the stack. -/
def var_decl_df (isFun : Nat → Bool) (st : DFSt) (scope : ScopeSt)
    (node : String × Nat) (assignt obj : Bool) : DFSt × ScopeSt :=
  match scope.get_pos_identifier node with
  | none => (st, scope.add_var node)
  | some var_index =>
    if assignt then
      if obj then
        -- object used and modified: data dependency, then `update_var`
        let st := set_df isFun st scope var_index node.2
        (st, scope.update_var var_index node)
      else
        -- variable modified: `add_var_if2`, and since `if_else_assignt`
        -- is set, `update_var` is *not* called (lines 296-304)
        (st, scope.add_var_if2 var_index node)
    else
      (st, scope.update_var var_index node)

/-- data_flow.py lines 390-404: `update_expr_df` for one identifier
argument (for an operand that is a plain identifier, `search_identifiers`
returns exactly that node).  The final `compute_update_expression` only
updates the identifier's value cell. -/
def update_expr_df (isFun : Nat → Bool) (st : DFSt) (scope : ScopeSt)
    (argument : String × Nat) : DFSt × ScopeSt :=
  let (st, scope) := assignment_df isFun st scope argument false
  let (st, scope) := var_decl_df isFun st scope argument true false
  let (st, scope) := assignment_df isFun st scope argument false
  (st, scope)

/-! ## js_operators.py: `compute_operators` (lines 152-236, 534-621)

The operand values are the results of `get_node_computed_value` on the two
children of the `BinaryExpression`; the slice works on computed primitive
values directly (the `isinstance(node_a, Node)` front of
`compute_operators`, lines 155-174, reduces to the identity on them).
Python numbers are modelled by `ℚ`; note `isinstance(True, int)` holds in
Python, so booleans count as numbers. -/

/-- Computed primitive values. -/
inductive JVal where
  | num (q : ℚ)
  | str (s : String)
  | boolv (b : Bool)
  | null
deriving DecidableEq, Repr

/-- Exceptions that the operator helpers can raise. -/
inductive PyErr where
  | typeError
  | zeroDivisionError
deriving DecidableEq, Repr

/-- Python `isinstance(v, (int, float))`: booleans are ints; their numeric
value is 1 / 0. -/
def JVal.numVal : JVal → Option ℚ
  | .num q => some q
  | .boolv b => some (if b then 1 else 0)
  | _ => none

def JVal.isNum (v : JVal) : Bool := v.numVal.isSome

def JVal.isStr : JVal → Bool
  | .str _ => true
  | _ => false

/-- Python truthiness. -/
def JVal.truthy : JVal → Bool
  | .num q => q ≠ 0
  | .str s => s ≠ ""
  | .boolv b => b
  | .null => false

/-- Python `str(v)`.  The rendering of a non-integer number is approximated
by the rational `toString`; only its role as "some string", never its exact
digits, matters to the claims. -/
def JVal.pyStr : JVal → String
  | .num q => if q.den = 1 then toString q.num else toString q
  | .str s => s
  | .boolv b => if b then ("True") else ("False")
  | .null => "None"

/-- js_operators.py lines 534-538: `operator_plus`.  On non-string
non-numeric operands Python `a + b` raises `TypeError`. -/
def operator_plus (a b : JVal) : Except PyErr JVal :=
  if a.isStr ∨ b.isStr then .ok (.str (a.pyStr ++ b.pyStr))
  else
    match a.numVal, b.numVal with
    | some x, some y => .ok (.num (x + y))
    | _, _ => .error .typeError

/-- js_operators.py lines 541-543: `operator_minus`. -/
def operator_minus (a b : JVal) : Except PyErr JVal :=
  match a.numVal, b.numVal with
  | some x, some y => .ok (.num (x - y))
  | _, _ => .error .typeError

/-- js_operators.py lines 546-548: `operator_asterisk` (the string/int
repetition case of Python `*` is outside the slice and mapped to
`TypeError`). -/
def operator_asterisk (a b : JVal) : Except PyErr JVal :=
  match a.numVal, b.numVal with
  | some x, some y => .ok (.num (x * y))
  | _, _ => .error .typeError

/-- js_operators.py lines 551-556: `operator_slash`.  The `b == 0` guard
returns `None`; Python equality with `0` holds exactly for numeric values
equal to zero (including `False`). -/
def operator_slash (a b : JVal) : Except PyErr JVal :=
  if b.numVal = some 0 then .ok .null
  else
    match a.numVal, b.numVal with
    | some x, some y => .ok (.num (x / y))
    | _, _ => .error .typeError

/-- js_operators.py lines 559-561: `operator_2asterisk`.  Integer exponents
are modelled exactly (`0 ** negative` raises `ZeroDivisionError` in
Python); a fractional exponent yields an irrational float outside the
rational model and is rendered as `null` here (not claim-relevant). -/
def operator_2asterisk (a b : JVal) : Except PyErr JVal :=
  match a.numVal, b.numVal with
  | some x, some y =>
    if y.den = 1 then
      if x = 0 ∧ y.num < 0 then .error .zeroDivisionError
      else .ok (.num (x ^ y.num))
    else .ok .null
  | _, _ => .error .typeError

/-- js_operators.py lines 564-566: `operator_modulo`.  There is **no** zero
guard: Python `a % 0` raises `ZeroDivisionError`.  For a non-zero divisor,
Python's `%` on numbers is `a - b * floor(a / b)`. -/
def operator_modulo (a b : JVal) : Except PyErr JVal :=
  match a.numVal, b.numVal with
  | some x, some y =>
    if y = 0 then .error .zeroDivisionError
    else .ok (.num (x - y * (⌊x / y⌋ : ℤ)))
  | _, _ => .error .typeError

/-- js_operators.py lines 569-571: `operator_plus_plus` (`a + 1`). -/
def operator_plus_plus (a : JVal) : Except PyErr JVal :=
  match a.numVal with
  | some x => .ok (.num (x + 1))
  | none => .error .typeError

/-- js_operators.py lines 574-576: `operator_minus_minus` (`a - 1`). -/
def operator_minus_minus (a : JVal) : Except PyErr JVal :=
  match a.numVal with
  | some x => .ok (.num (x - 1))
  | none => .error .typeError

/-- Python `a == b` on the slice values: numeric comparison when both sides
are numeric (`1 == True` holds), structural equality otherwise (values of
different shapes compare unequal, no exception). -/
def pyEq (a b : JVal) : Bool :=
  match a.numVal, b.numVal with
  | some x, some y => x == y
  | _, _ => a == b

/-- js_operators.py lines 579-581: `operator_equal`. -/
def operator_equal (a b : JVal) : Except PyErr JVal := .ok (.boolv (pyEq a b))

/-- js_operators.py lines 584-586: `operator_different`. -/
def operator_different (a b : JVal) : Except PyErr JVal := .ok (.boolv (!pyEq a b))

/-- js_operators.py lines 589-591: `operator_not` (`not a`). -/
def operator_not (a : JVal) : Except PyErr JVal := .ok (.boolv (!a.truthy))

/-- Python order comparisons: numbers compare numerically, strings
lexicographically, anything else raises `TypeError`. -/
def pyCompare (a b : JVal) : Except PyErr (Ordering) :=
  match a.numVal, b.numVal with
  | some x, some y => .ok (compare x y)
  | _, _ =>
    match a, b with
    | .str s₁, .str s₂ => .ok (compare s₁ s₂)
    | _, _ => .error .typeError

/-- js_operators.py lines 594-596: `operator_bigger_equal`. -/
def operator_bigger_equal (a b : JVal) : Except PyErr JVal :=
  (pyCompare a b).map (fun o => .boolv (o ≠ .lt))

/-- js_operators.py lines 599-601: `operator_bigger`. -/
def operator_bigger (a b : JVal) : Except PyErr JVal :=
  (pyCompare a b).map (fun o => .boolv (o = .gt))

/-- js_operators.py lines 604-606: `operator_smaller_equal`. -/
def operator_smaller_equal (a b : JVal) : Except PyErr JVal :=
  (pyCompare a b).map (fun o => .boolv (o ≠ .gt))

/-- js_operators.py lines 609-611: `operator_smaller`. -/
def operator_smaller (a b : JVal) : Except PyErr JVal :=
  (pyCompare a b).map (fun o => .boolv (o = .lt))

/-- js_operators.py lines 614-616: `operator_and` (Python `a and b`). -/
def operator_and (a b : JVal) : Except PyErr JVal :=
  .ok (if a.truthy then b else a)

/-- js_operators.py lines 619-621: `operator_or` (Python `a or b`). -/
def operator_or (a b : JVal) : Except PyErr JVal :=
  .ok (if a.truthy then a else b)

/-- The dispatch ladder inside the `try` of `compute_operators`
(js_operators.py lines 191-236), before exception handling. -/
def try_operators (operator : String) (a b : JVal) : Except PyErr JVal :=
  if operator = "+=" ∨ operator = "+" then operator_plus a b
  else if operator = "-=" ∨ operator = "-" then operator_minus a b
  else if operator = "*=" ∨ operator = "*" then operator_asterisk a b
  else if operator = "/=" ∨ operator = "/" then operator_slash a b
  else if operator = "**=" ∨ operator = "**" then operator_2asterisk a b
  else if operator = "%=" ∨ operator = "%" then operator_modulo a b
  else if operator = "++" then operator_plus_plus a
  else if operator = "--" then operator_minus_minus a
  else if operator = "==" ∨ operator = "===" then operator_equal a b
  else if operator = "!=" ∨ operator = "!==" then operator_different a b
  else if operator = "!" then operator_not a
  else if operator = ">=" then operator_bigger_equal a b
  else if operator = ">" then operator_bigger a b
  else if operator = "<=" then operator_smaller_equal a b
  else if operator = "<" then operator_smaller a b
  else if operator = "&&" then operator_and a b
  else if operator = "||" then operator_or a b
  else if operator ∈ ["&", ">>", ">>>", "<<", "^", "|", "&=", ">>=", ">>>=",
                      "<<=", "^=", "|=", "in", "instanceof"] then
    .ok .null          -- "Currently not handling the operator", lines 226-229
  else .ok .null       -- unknown operator, lines 235-236

/-- Python `'.' in a` for the slice. -/
def hasDot : JVal → Bool
  | .str s => s.contains '.'
  | _ => false

/-- js_operators.py lines 152-236: `compute_operators` on computed operand
values.  The non-numeric preamble is lines 176-189; the `try` block
catches **only** `TypeError` (line 231) and turns it into `None`, so a
`ZeroDivisionError` escapes the evaluator. -/
def compute_operators (operator : String) (a b : JVal) : Except PyErr JVal :=
  let dispatch : Except PyErr JVal :=
    match try_operators operator a b with
    | .error .typeError => .ok .null   -- `except TypeError` (lines 231-233)
    | r => r
  if ¬a.isNum ∨ ¬b.isNum then
    if (operator = "+=" ∨ operator = "+") ∧ (a.isStr ∨ b.isStr) then
      operator_plus a b                -- line 177-178 (outside the try)
    else if a = .null ∨ b = .null then .ok .null   -- lines 179-180
    else if ¬hasDot a ∧ ¬hasDot b then dispatch    -- `pass` (lines 181-186)
    else .ok .null                     -- lines 187-189
  else dispatch

/-! ## node.py: `set_value` truncation (lines 193-275)

Stored symbolic values are strings, other scalars (carrying the length of
their `str()` rendering), lists, and dicts (association lists in insertion
order, string keys).  Python object identities are unique on these tree
values, so the `id(...) in visited` cycle guard of `shorten_value_dict`
never fires and is not represented. -/

/-- utility_df.py line 45: `LIMIT_SIZE`. -/
def LIMIT_SIZE : Nat := 10000

inductive PyVal where
  | vstr (s : List Char)
  | atom (sz : Nat)
  | vlist (l : List PyVal)
  | vdict (d : List (List Char × PyVal))

mutual
/-- `len(str(el))` for a value: the length of Python's repr.  Strings gain
their two quotes; lists/dicts their brackets, `", "` separators and
`": "` key separators.  (Only its magnitude matters to the claims.) -/
def pyReprLen : PyVal → Nat
  | .vstr s => s.length + 2
  | .atom sz => sz
  | .vlist l => 2 + pyReprLenList l + 2 * (l.length - 1)
  | .vdict d => 2 + pyReprLenEntries d + 2 * (d.length - 1)

def pyReprLenList : List PyVal → Nat
  | [] => 0
  | v :: rest => pyReprLen v + pyReprLenList rest

def pyReprLenEntries : List (List Char × PyVal) → Nat
  | [] => 0
  | kv :: rest => kv.1.length + 4 + pyReprLen kv.2 + pyReprLenEntries rest
end

mutual
/-- The cumulative character count of a value, exactly the quantity the
`shorten_value_*` counters accumulate for retained content: string lengths,
scalar `str()` lengths, and dict key lengths. -/
def sumChars : PyVal → Nat
  | .vstr s => s.length
  | .atom sz => sz
  | .vlist l => sumCharsList l
  | .vdict d => sumCharsEntries d

def sumCharsList : List PyVal → Nat
  | [] => 0
  | v :: rest => sumChars v + sumCharsList rest

def sumCharsEntries : List (List Char × PyVal) → Nat
  | [] => 0
  | kv :: rest => kv.1.length + sumChars kv.2 + sumCharsEntries rest
end

/-- node.py lines 193-210: `shorten_value_list`.  Returns the shortened
copy (the content appended to `value_list_shortened`) together with the
final counter.  A nested list always contributes its (recursively
shortened) skeleton; a string or scalar is appended only while the counter
stays below `LIMIT_SIZE`; a dict inside a list falls into the `else` branch
and is counted by `len(str(el))`. -/
def shorten_value_list : List PyVal → Nat → List PyVal × Nat
  | [], counter => ([], counter)
  | el :: rest, counter =>
    match el with
    | .vlist l =>
      let p := shorten_value_list l counter
      if p.2 ≥ LIMIT_SIZE then ([.vlist p.1], p.2)
      else
        let q := shorten_value_list rest p.2
        (.vlist p.1 :: q.1, q.2)
    | .vstr s =>
      let c1 := counter + s.length
      let q := shorten_value_list rest c1
      (if c1 < LIMIT_SIZE then .vstr s :: q.1 else q.1, q.2)
    | .atom sz =>
      let c1 := counter + sz
      let q := shorten_value_list rest c1
      (if c1 < LIMIT_SIZE then .atom sz :: q.1 else q.1, q.2)
    | .vdict d =>
      let c1 := counter + pyReprLen (.vdict d)
      let q := shorten_value_list rest c1
      (if c1 < LIMIT_SIZE then .vdict d :: q.1 else q.1, q.2)

/-- node.py lines 213-245: `shorten_value_dict`.  Every key's length is
counted; an entry whose value is a list or dict is **always** added (with
its shortened value) before the `counter >= LIMIT_SIZE` early return is
checked, whereas string/scalar entries are only added below the budget. -/
def shorten_value_dict : List (List Char × PyVal) → Nat → List (List Char × PyVal) × Nat
  | [], counter => ([], counter)
  | (k, v) :: rest, counter =>
    let counter := counter + k.length
    match v with
    | .vlist l =>
      let p := shorten_value_list l counter
      if p.2 ≥ LIMIT_SIZE then ([(k, .vlist p.1)], p.2)
      else
        let q := shorten_value_dict rest p.2
        ((k, .vlist p.1) :: q.1, q.2)
    | .vdict d =>
      let p := shorten_value_dict d counter
      if p.2 ≥ LIMIT_SIZE then ([(k, .vdict p.1)], p.2)
      else
        let q := shorten_value_dict rest p.2
        ((k, .vdict p.1) :: q.1, q.2)
    | .vstr s =>
      let c1 := counter + s.length
      let q := shorten_value_dict rest c1
      (if c1 < LIMIT_SIZE then (k, .vstr s) :: q.1 else q.1, q.2)
    | .atom sz =>
      let c1 := counter + sz
      let q := shorten_value_dict rest c1
      (if c1 < LIMIT_SIZE then (k, .atom sz) :: q.1 else q.1, q.2)

/-- node.py lines 260-275: `Value.set_value` on a primitive-tree value.
Lists and dicts are replaced by their shortened copy only when the final
counter reached `LIMIT_SIZE`; strings are sliced to `LIMIT_SIZE`
characters; other values are stored unchanged. -/
def set_value (value : PyVal) : PyVal :=
  match value with
  | .vlist l =>
    let p := shorten_value_list l 0
    if p.2 ≥ LIMIT_SIZE then .vlist p.1 else .vlist l
  | .vdict d =>
    let p := shorten_value_dict d 0
    if p.2 ≥ LIMIT_SIZE then .vdict p.1 else .vdict d
  | .vstr s => .vstr (s.take LIMIT_SIZE)
  | .atom sz => .atom sz

/-- Top-level shape of a value (`set_value`'s truncation is claimed to
preserve it). -/
inductive PyShape where
  | strShape
  | atomShape
  | listShape
  | dictShape
deriving DecidableEq, Repr

def PyVal.shape : PyVal → PyShape
  | .vstr _ => .strShape
  | .atom _ => .atomShape
  | .vlist _ => .listShape
  | .vdict _ => .dictShape

/-! ## js_operators.py: `get_node_computed_value` (lines 100-149)

The evaluator is embedded on the fragment its claim cites: nodes whose
symbolic value cell holds a primitive or a reference to another node
(`Identifier` / `Literal` nodes, exactly the shapes produced by
`a = b; b = a` chains).  The heap maps node indices to their mutable state;
`recvisited` is the visited set threaded through the recursion, and the
`initial_node` provenance parameter is `None` throughout (as in the
top-level calls), so `set_provenance` is never invoked. -/

/-- The mutable state of one node, as read by the evaluator. -/
structure VNode (sz : Nat) where
  /-- `isinstance(node, Value)`: Identifier, ValueExpr, ReturnStatement. -/
  isValue : Bool
  /-- `isinstance(node, ValueExpr)`: e.g. `Literal` (but not `Identifier`). -/
  isValueExpr : Bool
  /-- `node.name in CALL_EXPR` (suppresses caching, line 145). -/
  isCallExpr : Bool
  /-- `node.value`: `None`, a primitive, or a reference to another node. -/
  cell : Option (JVal ⊕ Fin sz)
  /-- The result of `node.get_node_attributes()` (node.py lines 134-148):
  the `value` attribute of a `Literal`, or the `name` of an `Identifier`. -/
  attr : Option JVal

def Heap (sz : Nat) := Fin sz → VNode sz

/-- Revisit result (js_operators.py lines 108-114, also the recursion-depth
bailout of lines 116-120): `node.value` for a `Value` node, else `None`. -/
def cached_value {sz : Nat} (h : Heap sz) (n : Fin sz) : Option (JVal ⊕ Fin sz) :=
  if (h n).isValue then (h n).cell else none

/-- node.py lines 260-275 applied to an evaluator result: only the string
case of `set_value` is reachable for these values. -/
def cell_of_result {sz : Nat} (v : Option (JVal ⊕ Fin sz)) : Option (JVal ⊕ Fin sz) :=
  match v with
  | some (.inl (.str s)) => some (.inl (.str (s.take LIMIT_SIZE)))
  | other => other

def update_cell {sz : Nat} (h : Heap sz) (n : Fin sz)
    (c : Option (JVal ⊕ Fin sz)) : Heap sz :=
  Function.update h n { h n with cell := c }

/-- js_operators.py lines 34-97: `get_node_value` on the slice.  A
`ValueExpr` with a non-`None` value returns it (lines 40-42); otherwise the
attributes are consulted (lines 44-46); no dispatch arm matches an
`Identifier`/`Literal`, and the final loop over (absent) children falls
through to `return None` (line 97). -/
def get_node_value {sz : Nat} (h : Heap sz) (n : Fin sz) : Option (JVal ⊕ Fin sz) :=
  if (h n).isValueExpr ∧ (h n).cell ≠ none then (h n).cell
  else
    match (h n).attr with
    | some a => some (.inl a)
    | none => none

/-- js_operators.py lines 100-149: `get_node_computed_value`.  Returns the
computed value together with the updated heap (the caching `set_value` of
line 147 mutates the node).  The visited set makes every node enter the
body at most once per top-level call, which is also the termination
measure. -/
def get_node_computed_value {sz : Nat} (h : Heap sz) (n : Fin sz)
    (recvisited : Finset (Fin sz)) (recdepth : Nat) (keep_none : Bool) :
    Option (JVal ⊕ Fin sz) × Heap sz :=
  if hn : n ∈ recvisited then
    (cached_value h n, h)                      -- revisit: lines 108-114
  else
    -- `recvisited.add(node)` (line 115)
    if 1000 < recdepth then
      (cached_value h n, h)                    -- depth cap: lines 116-120
    else
      -- lines 127-136: read the cell; chase a node reference
      let v0 : Option (JVal ⊕ Fin sz) := if (h n).isValue then (h n).cell else none
      let step : Option (JVal ⊕ Fin sz) × Heap sz :=
        match v0 with
        | some (.inr m) =>
          if m ≠ n then
            get_node_computed_value h m (insert n recvisited) (recdepth + 1) false
          else (v0, h)
        | _ => (v0, h)
      -- lines 138-142: compute when still None (and not keep_none)
      let v2 : Option (JVal ⊕ Fin sz) :=
        if step.1 = none ∧ ¬keep_none then get_node_value step.2 n else step.1
      -- lines 145-147: cache on Value nodes, except call expressions
      let h3 : Heap sz :=
        if (step.2 n).isValue ∧ ¬(step.2 n).isCallExpr then
          update_cell step.2 n (cell_of_result v2)
        else step.2
      (v2, h3)
termination_by sz - recvisited.card
decreasing_by
  have h₁ : (insert n recvisited).card = recvisited.card + 1 :=
    Finset.card_insert_of_not_mem hn
  have h₂ : (insert n recvisited).card ≤ sz := by
    simpa using Finset.card_le_card (Finset.subset_univ (insert n recvisited))
  omega

/-- Growth order on the two edge lists the switch claims mention. -/
def EdgeSt.sub (E₁ E₂ : EdgeSt) : Prop :=
  E₁.sdChildren ⊆ E₂.sdChildren ∧ E₁.cdChildren ⊆ E₂.cdChildren

/-- The `true`-labelled fold shared by both branches of `switch_case_cf`. -/
def fold_true (c : GNode) (st : EdgeSt) (l : List GNode) : EdgeSt :=
  l.foldl
    (fun st g =>
      if g.is_comment then st
      else set_control_dependency st c.id g.id g.name CLabel.t) st

/-- The edges the claim expects inside one case, when it is handled with a
condition (the non-last branch of `switch_case_cf`): with at least two
children the first child (the test) becomes a statement dependency and the
others `true` control dependencies; with exactly one child that child
becomes a `true` control dependency (even when it is the test). -/
def case_conditional (E : EdgeSt) (c : GNode) : Prop :=
  match c.children with
  | [] => True
  | [x] => (c.id, x.id, CLabel.t) ∈ E.cdChildren
  | t :: cs => (c.id, t.id) ∈ E.sdChildren ∧
      ∀ g ∈ cs, (c.id, g.id, CLabel.t) ∈ E.cdChildren

/-- The edges the claim expects for the unconditionally handled (last)
case: every child is a `true` control dependency. -/
def case_unconditional (E : EdgeSt) (c : GNode) : Prop :=
  ∀ g ∈ c.children, (c.id, g.id, CLabel.t) ∈ E.cdChildren

/-- `comment_free c`: neither the case node nor its children are comments. -/
def comment_free (c : GNode) : Prop :=
  c.is_comment = false ∧ ∀ g ∈ c.children, g.is_comment = false

/-- The chain of edges and case handling the (amended) claim expects from
`switch_cf`'s loop: consecutive cases are chained with `false` labels, the
intermediate cases are handled conditionally, and the final case of the
chain unconditionally. -/
def cases_spec (E : EdgeSt) : List GNode → Prop
  | [] => True
  | [c] => case_unconditional E c
  | c :: c₂ :: rest => case_conditional E c ∧
      (c.id, c₂.id, CLabel.f) ∈ E.cdChildren ∧ cases_spec E (c₂ :: rest)

/-- The cyclic heap produced by `a = b; b = a`: two identifier nodes whose
value cells reference each other. -/
def cycleHeap : Heap 2 := fun i =>
  if i = 0 then ⟨true, false, false, some (Sum.inr 1), some (JVal.str ("a"))⟩
  else ⟨true, false, false, some (Sum.inr 0), some (JVal.str ("b"))⟩

/-! ## Claims -/

/-- C2: the spec claims that for numeric operands, division by zero *and*
modulo by zero both evaluate to the null value without an uncaught
exception.  Division by zero indeed yields `null` (`operator_slash` guards
`b == 0`), but `operator_modulo` has no such guard: Python raises
`ZeroDivisionError`, and the `try` of `compute_operators` catches only
`TypeError`, so the exception escapes the evaluator.  The theorem evaluates
the embedded evaluator at the failing input `1 % 0` (and at `1 / 0`). -/
theorem claim_C2 : (∀ q : ℚ,
      compute_operators ("/") (JVal.num q) (JVal.num 0) = Except.ok JVal.null ∧
      compute_operators ("%") (JVal.num q) (JVal.num 0) =
        Except.error PyErr.zeroDivisionError) ∧
    compute_operators ("%") (JVal.num 1) (JVal.num 0) =
      Except.error PyErr.zeroDivisionError := by
  refine ⟨fun q => ⟨?_, ?_⟩, ?_⟩ <;> rfl

/-- C3: the claim states that on both failure modes (parse failure, build
timeout) `get_data_flow` returns a childless node of kind `Program`.  The
parse-failure branch (build_pdg.py line 205) actually returns
`Node('ParsingError')`: a childless node whose kind is not `Program`. -/
theorem claim_C3_counterexample :
    (get_data_flow none (fun _ => DFOutcome.timeout)).name ≠ "Program" ∧
    (get_data_flow none (fun _ => DFOutcome.timeout)).children = [] := by
  exact ⟨by decide, rfl⟩

/-- C3 (amended): a parse failure yields the childless node
`Node('ParsingError')` and a build timeout the childless node
`Node('Program')`; in both cases the result has no children, so downstream
resolvers see no flows. -/
theorem claim_C3 (run : PNode → DFOutcome) (ast : PNode) :
    get_data_flow none run = PNode.mk ("ParsingError") [] ∧
    (run ast = DFOutcome.timeout →
      get_data_flow (some ast) run = PNode.mk ("Program") []) := by
  constructor
  · rfl
  · intro h
    simp [get_data_flow, h]

/-- Witness for C3 at a concrete page: a run that times out returns the
empty `Program` node. -/
theorem claim_C3_witness :
    get_data_flow (some (PNode.mk ("Program") [])) (fun _ => DFOutcome.timeout) =
      PNode.mk ("Program") [] :=
  (claim_C3 (fun _ => DFOutcome.timeout) (PNode.mk ("Program") [])).2 rfl

/-- C9: the claim says the CLI exits non-zero exactly on I/O setup
failures, i.e. bad input path or bad config path.  But `main()` only calls
`exit(-1)` on a missing config (main.py line 43); a nonexistent input path
merely prints `[main] error: invalid input path` and falls off the end of
`main`, so the interpreter exits 0.  Concrete input: no config given,
input path does not exist. -/
theorem claim_C9_counterexample :
    ¬ (∀ inputExists inputIsFile configGiven configExists : Bool,
        main_exit inputExists inputIsFile configGiven configExists ≠ 0 ↔
          (inputExists = false ∨ (configGiven = true ∧ configExists = false))) := by
  intro h
  exact (h false false false false).mpr (Or.inl rfl) (by decide)

/-- C9 (amended): the CLI exits with status 0 on completion and exits
non-zero exactly when a config path was given and does not exist; a
nonexistent input path is only reported on stdout and still exits 0. -/
theorem claim_C9 :
    ∀ inputExists inputIsFile configGiven configExists : Bool,
      main_exit inputExists inputIsFile configGiven configExists ≠ 0 ↔
        (configGiven = true ∧ configExists = false) := by
  decide

/-- Rows produced by the recording loop of `handle_data_child_node`: each
comes from the accumulator or from a non-self source. -/
theorem record_result_rows_mem (method ident sink : String) :
    ∀ (sources : List String) (acc : List Flow) (f : Flow),
      f ∈ sources.foldl
        (fun acc source_name =>
          if source_name = sink then acc
          else acc ++ [⟨method, ident, source_name, sink⟩]) acc →
      f ∈ acc ∨ (f.source ≠ sink ∧ f.sink = sink) := by
  intro sources
  induction sources with
  | nil => intro acc f hf; exact Or.inl hf
  | cons s rest ih =>
    intro acc f hf
    simp only [List.foldl_cons] at hf
    by_cases hs : s = sink
    · simpa [hs] using ih acc f (by simpa [hs] using hf)
    · rcases ih _ f (by simpa [hs] using hf) with h | h
      · rcases List.mem_append.mp h with h | h
        · exact Or.inl h
        · simp only [List.mem_singleton] at h
          subst h
          exact Or.inr ⟨hs, rfl⟩
      · exact Or.inr h

/-- C10: the taint resolver never records a result row whose source equals
its sink: the loop of `handle_data_child_node` (wxjs.py lines 353-371)
skips any pair with `source_name == sink`, so every recorded row has
`source ≠ sink`. -/
theorem claim_C10 (hasDataDepChildren : Bool) (method ident sink : String)
    (sources : List String) (f : Flow)
    (hf : f ∈ handle_data_child_node hasDataDepChildren method ident sink sources) :
    f.source ≠ f.sink := by
  unfold handle_data_child_node at hf
  split at hf
  · simp at hf
  · split at hf
    · simp at hf
    · split at hf
      · simp at hf
      · unfold record_result_rows at hf
        rcases record_result_rows_mem method ident sink sources [] f hf with h | h
        · simp at h
        · rw [h.2]; exact h.1

/-- Witness for C10: a `wx.getStorageSync → wx.request` row recorded for a
terminal identifier has distinct source and sink. -/
theorem claim_C10_witness :
    (Flow.mk ("onLoad") "v" "wx.getStorageSync" "wx.request").source ≠
      (Flow.mk ("onLoad") "v" "wx.getStorageSync" "wx.request").sink :=
  claim_C10 false ("onLoad") "v" "wx.request" ["wx.getStorageSync"]
    (Flow.mk ("onLoad") "v" "wx.getStorageSync" "wx.request") (by decide)

/-- With both filter lists non-empty, `filter_flow` never raises and
returns the two-conditional append of taintmini.py lines 23-29. -/
theorem filter_flow_both (ss ks : List String) (hss : ss ≠ []) (hks : ks ≠ [])
    (f : Flow) :
    filter_flow ⟨some ss, some ks⟩ f =
      Except.ok ((if f.source ∈ ss ∧ f.sink ∈ ks then [f] else []) ++
        (if ("[double_binding]") ∈ ss ∧ strContains f.source ("[data from")
            ∧ f.sink ∈ ks then [f] else [])) := by
  simp only [filter_flow, List.isEmpty_iff]
  rw [if_neg hss, if_neg hks]

/-- Membership in one flow's contribution: only the flow itself can occur,
and it occurs exactly when the plain or double-binding condition holds. -/
theorem mem_filter_hits (ss ks : List String) (f g : Flow) :
    (g ∈ (if f.source ∈ ss ∧ f.sink ∈ ks then [f] else []) ++
        (if ("[double_binding]") ∈ ss ∧ strContains f.source ("[data from")
            ∧ f.sink ∈ ks then [f] else [])) ↔
      (g = f ∧
        ((f.source ∈ ss ∧ f.sink ∈ ks) ∨
          ("[double_binding]" ∈ ss ∧ strContains f.source ("[data from") = true ∧
            f.sink ∈ ks))) := by
  simp only [List.mem_append]
  constructor
  · rintro (h | h) <;> split_ifs at h <;> simp_all
  · rintro ⟨rfl, h₁ | h₂⟩
    · exact Or.inl (by simp [h₁])
    · exact Or.inr (by simp [h₂.1, h₂.2.1, h₂.2.2])

/-- A monadic fold over per-element contributions that never raise returns
the flattened contribution list. -/
theorem foldlM_map_append {E β γ : Type} (g : γ → Except E (List β))
    (gl : γ → List β) (hg : ∀ x, g x = Except.ok (gl x)) :
    ∀ (l : List γ) (acc : List β),
      List.foldlM (fun acc x => (g x).map (fun add => acc ++ add)) acc l =
        Except.ok (acc ++ l.flatMap gl) := by
  intro l
  induction l with
  | nil => intro acc; simp [List.foldlM_nil, pure, Except.pure]
  | cons x rest ih =>
    intro acc
    rw [List.foldlM_cons, hg x]
    show List.foldlM (fun acc x => (g x).map (fun add => acc ++ add))
        (acc ++ gl x) rest = Except.ok (acc ++ (x :: rest).flatMap gl)
    rw [ih (acc ++ gl x)]
    simp [List.append_assoc]

/-- With both filter lists non-empty, the per-page loop returns the
flattened per-flow contributions. -/
theorem filter_page_flows_both (ss ks : List String) (hss : ss ≠ [])
    (hks : ks ≠ []) (flows : List Flow) :
    filter_page_flows ⟨some ss, some ks⟩ flows =
      Except.ok (flows.flatMap (fun f =>
        (if f.source ∈ ss ∧ f.sink ∈ ks then [f] else []) ++
        (if ("[double_binding]") ∈ ss ∧ strContains f.source ("[data from")
            ∧ f.sink ∈ ks then [f] else []))) := by
  unfold filter_page_flows
  rw [foldlM_map_append (filter_flow ⟨some ss, some ks⟩) _
    (fun f => filter_flow_both ss ks hss hks f) flows []]
  simp

/-- With a non-empty `sources` list and no `sinks` key, the first flow of a
page raises the `KeyError` of taintmini.py line 32. -/
theorem filter_page_flows_keyError (ss : List String) (hss : ss ≠ [])
    (flows : List Flow) (hf : flows ≠ []) :
    filter_page_flows ⟨some ss, none⟩ flows = Except.error DictErr.keyError := by
  rcases flows with _ | ⟨f, rest⟩
  · exact absurd rfl hf
  · unfold filter_page_flows
    rw [List.foldlM_cons]
    have hflow : filter_flow ⟨some ss, none⟩ f = Except.error DictErr.keyError := by
      simp only [filter_flow, List.isEmpty_iff]
      rw [if_neg hss]
    rw [hflow]
    rfl

theorem filter_results_keyError_aux (ss : List String) (hss : ss ≠ []) :
    ∀ (l acc : List (String × List Flow)), (∃ p ∈ l, p.2 ≠ []) →
      l.foldlM
        (fun filtered page =>
          (filter_page_flows ⟨some ss, none⟩ page.2).map (fun flows =>
            if flows.isEmpty then filtered else filtered ++ [(page.1, flows)]))
        acc = Except.error DictErr.keyError := by
  intro l
  induction l with
  | nil =>
    intro acc hex
    rcases hex with ⟨p, hp, _⟩
    simp at hp
  | cons page rest ih =>
    intro acc hex
    rw [List.foldlM_cons]
    rcases hpage : page.2 with _ | ⟨f, fs⟩
    · show List.foldlM
          (fun filtered page =>
            (filter_page_flows ⟨some ss, none⟩ page.2).map (fun flows =>
              if flows.isEmpty then filtered else filtered ++ [(page.1, flows)]))
          acc rest = Except.error DictErr.keyError
      refine ih acc ?_
      rcases hex with ⟨p, hp, hpne⟩
      rcases List.mem_cons.mp hp with rfl | hp
      · exact absurd hpage hpne
      · exact ⟨p, hp, hpne⟩
    · rw [filter_page_flows_keyError ss hss (f :: fs) (by simp)]
      rfl

theorem filter_results_ok_nonempty_aux (config : Config) :
    ∀ (l acc out : List (String × List Flow)),
      (∀ p ∈ acc, p.2 ≠ []) →
      l.foldlM
        (fun filtered page =>
          (filter_page_flows config page.2).map (fun flows =>
            if flows.isEmpty then filtered else filtered ++ [(page.1, flows)]))
        acc = Except.ok out →
      ∀ p ∈ out, p.2 ≠ [] := by
  intro l
  induction l with
  | nil =>
    intro acc out hacc hout
    rw [List.foldlM_nil] at hout
    cases hout
    exact hacc
  | cons page rest ih =>
    intro acc out hacc hout
    rw [List.foldlM_cons] at hout
    rcases hpf : filter_page_flows config page.2 with e | flows
    · rw [hpf] at hout
      cases hout
    · rw [hpf] at hout
      have hstep : List.foldlM
          (fun filtered page =>
            (filter_page_flows config page.2).map (fun flows =>
              if flows.isEmpty then filtered else filtered ++ [(page.1, flows)]))
          (if flows.isEmpty then acc else acc ++ [(page.1, flows)]) rest =
          Except.ok out := hout
      refine ih _ out ?_ hstep
      intro q hq
      split at hq
      · exact hacc q hq
      · rcases List.mem_append.mp hq with h | h
        · exact hacc q h
        · simp only [List.mem_singleton] at h
          subst h
          rename_i hne
          simpa [List.isEmpty_iff] using hne

/-- C4: the config-filtering contract of `filter_results`:
(1) with neither a non-empty `sources` nor a non-empty `sinks` list the
input map is returned unchanged; (2) with both lists given, no exception is
raised and a flow is kept iff its source and sink match, or the
`[double_binding]` pseudo-source is listed, the flow's source contains
`"[data from"` and its sink matches; (3) with a non-empty `sources` list
but no `sinks` key, the first flow reaches `config["sinks"]` on line 32 and
the `KeyError` propagates out of `filter_results`; (4) whenever a map is
returned, every page whose surviving flow list is empty has been removed
from it. -/
theorem claim_C4 (config : Config) (results : List (String × List Flow)) :
    (config.noSources = true → config.noSinks = true →
      filter_results results config = Except.ok results) ∧
    (∀ ss ks, config.sources = some ss → config.sinks = some ks →
      ss ≠ [] → ks ≠ [] → ∀ (flows out : List Flow) (f : Flow),
        filter_page_flows config flows = Except.ok out →
        (f ∈ out ↔
          f ∈ flows ∧
            ((f.source ∈ ss ∧ f.sink ∈ ks) ∨
              ("[double_binding]" ∈ ss ∧ strContains f.source ("[data from") = true ∧
                f.sink ∈ ks)))) ∧
    (∀ ss, config.sources = some ss → ss ≠ [] → config.sinks = none →
      (∃ p ∈ results, p.2 ≠ []) →
      filter_results results config = Except.error DictErr.keyError) ∧
    (¬(config.noSources = true ∧ config.noSinks = true) →
      ∀ out, filter_results results config = Except.ok out →
        ∀ p ∈ out, p.2 ≠ []) := by
  refine ⟨?_, ?_, ?_, ?_⟩
  · intro h₁ h₂
    unfold filter_results
    rw [if_pos ⟨h₁, h₂⟩]
  · intro ss ks hs hk hss hks flows out f hout
    obtain ⟨src, snk⟩ := config
    simp only [Config.sources] at hs
    simp only [Config.sinks] at hk
    subst hs; subst hk
    rw [filter_page_flows_both ss ks hss hks flows] at hout
    injection hout with hout
    subst hout
    rw [List.mem_flatMap]
    constructor
    · rintro ⟨f₀, hf₀, hmem⟩
      obtain ⟨rfl, hcond⟩ := (mem_filter_hits ss ks f₀ f).mp hmem
      exact ⟨hf₀, hcond⟩
    · rintro ⟨hmem, hcond⟩
      exact ⟨f, hmem, (mem_filter_hits ss ks f f).mpr ⟨rfl, hcond⟩⟩
  · intro ss hs hss hk hex
    obtain ⟨src, snk⟩ := config
    simp only [Config.sources] at hs
    simp only [Config.sinks] at hk
    subst hs; subst hk
    unfold filter_results
    rw [if_neg (by simp [Config.noSources, List.isEmpty_iff, hss])]
    exact filter_results_keyError_aux ss hss results [] hex
  · intro hne out hout
    unfold filter_results at hout
    rw [if_neg hne] at hout
    exact filter_results_ok_nonempty_aux config results [] out (by simp) hout

/-- Witness for C4 at scenario 1 of the spec: with
`{"sources": ["wx.getStorageSync"], "sinks": ["wx.request"]}` the direct
flow is kept. -/
theorem claim_C4_witness :
    (Flow.mk ("onLoad") "v" "wx.getStorageSync" "wx.request" ∈
        [Flow.mk ("onLoad") "v" "wx.getStorageSync" "wx.request"] ↔
      Flow.mk ("onLoad") "v" "wx.getStorageSync" "wx.request" ∈
          [Flow.mk ("onLoad") "v" "wx.getStorageSync" "wx.request"] ∧
        (((Flow.mk ("onLoad") "v" "wx.getStorageSync" "wx.request").source ∈
              ["wx.getStorageSync"] ∧
            (Flow.mk ("onLoad") "v" "wx.getStorageSync" "wx.request").sink ∈
              ["wx.request"]) ∨
          ("[double_binding]" ∈ ["wx.getStorageSync"] ∧
            strContains
              (Flow.mk ("onLoad") "v" "wx.getStorageSync" "wx.request").source
              ("[data from") = true ∧
            (Flow.mk ("onLoad") "v" "wx.getStorageSync" "wx.request").sink ∈
              ["wx.request"]))) :=
  (claim_C4 ⟨some ["wx.getStorageSync"], some ["wx.request"]⟩ []).2.1
    ["wx.getStorageSync"] ["wx.request"] rfl rfl (by decide) (by decide)
    [Flow.mk ("onLoad") "v" "wx.getStorageSync" "wx.request"]
    [Flow.mk ("onLoad") "v" "wx.getStorageSync" "wx.request"]
    (Flow.mk ("onLoad") "v" "wx.getStorageSync" "wx.request") rfl

/-- C1: the claim asserts that no data-dependency edge connects a node to
itself (`u.id ≠ v.id`), in particular across the update-expression
sequence.  Concretely for `i = ...; i++` (variable `i` declared with writer
node 1, update operand node 2): the first `assignment_df` draws the read
edge `1 → 2`; `var_decl_df(assignt=True)` records node 2 in the scope's
`var_if2_list` *without* replacing the writer; the second `assignment_df`
then reads the dependency origins from `var_if2_list` — which now holds
node 2 itself — and `set_data_dependency` has no self-edge guard, so the
edge `2 → 2` is emitted. -/
theorem claim_C1_counterexample :
    ¬ (∀ p ∈ (update_expr_df (fun _ => false) ⟨EdgeSt.empty, false⟩
          ⟨[("i", 1)], [none]⟩ ("i", 2)).1.edges.ddChildren, p.1 ≠ p.2) := by
  intro h
  exact h (2, 2) (by decide) rfl

/-- C1 (amended): for an update expression `i++` on a previously declared
variable (previous writer node `w`, operand identifier node `a`, neither
referring to a function), the engine emits exactly the read edge `w → a`
followed by the self-edge `a → a`: both endpoints of every data-dep edge
are identifier nodes (the scope's writer entries and the operand are
identifiers by construction), both lists stay mirrored, but the second read
edge of the update-expression sequence connects the operand to itself. -/
theorem claim_C1 (isFun : Nat → Bool) (nm : String) (w a : Nat)
    (hw : isFun w = false) (ha : isFun a = false) (hwa : w ≠ a) :
    (update_expr_df isFun ⟨EdgeSt.empty, false⟩ ⟨[(nm, w)], [none]⟩
        (nm, a)).1.edges.ddChildren = [(w, a), (a, a)] ∧
    (update_expr_df isFun ⟨EdgeSt.empty, false⟩ ⟨[(nm, w)], [none]⟩
        (nm, a)).1.edges.ddParents = [(w, a), (a, a)] ∧
    (update_expr_df isFun ⟨EdgeSt.empty, false⟩ ⟨[(nm, w)], [none]⟩
        (nm, a)).1.stuck = false := by
  have hmem : ((a, a) ∈ [(w, a)]) = False := by
    simp [Prod.ext_iff, Ne.symm hwa]
  simp [update_expr_df, assignment_df, var_decl_df, set_df, set_data_dep,
        set_data_dependency, ScopeSt.get_pos_identifier, ScopeSt.add_var_if2,
        EdgeSt.empty, hw, ha, hmem, Ne.symm hwa]

/-- Witness for C1 at the concrete `i = ...; i++` scenario. -/
theorem claim_C1_witness :
    (update_expr_df (fun _ => false) ⟨EdgeSt.empty, false⟩
        ⟨[("i", 1)], [none]⟩ ("i", 2)).1.edges.ddChildren = [(1, 2), (2, 2)] ∧
    (update_expr_df (fun _ => false) ⟨EdgeSt.empty, false⟩
        ⟨[("i", 1)], [none]⟩ ("i", 2)).1.edges.ddParents = [(1, 2), (2, 2)] ∧
    (update_expr_df (fun _ => false) ⟨EdgeSt.empty, false⟩
        ⟨[("i", 1)], [none]⟩ ("i", 2)).1.stuck = false :=
  claim_C1 (fun _ => false) "i" 1 2 rfl rfl (by decide)

/-- C5: the claim asserts that *every* edge flavour is bidirectionally
registered, including control-dep edges produced by the
if/conditional-expression builder.  But `Statement.set_control_dependency`
wraps the reverse append in `try/except AttributeError` (node.py lines
388-391): when the destination is not a statement-kind node — e.g. the
identifier branches of a `ConditionalExpression`, which `if_cf` also
processes — the forward entry is recorded with no mirror.  Concrete input:
`cond ? x : y` (node 0) with test `Literal` (1) and identifier branches
(2, 3). -/
theorem claim_C5_counterexample :
    (0, 2, CLabel.t) ∈ (if_cf EdgeSt.empty
        (GNode.mk 0 ("ConditionalExpression")
          [GNode.mk 1 ("Literal") [], GNode.mk 2 ("Identifier") [],
           GNode.mk 3 ("Identifier") []])).cdChildren ∧
    (0, 2, CLabel.t) ∉ (if_cf EdgeSt.empty
        (GNode.mk 0 ("ConditionalExpression")
          [GNode.mk 1 ("Literal") [], GNode.mk 2 ("Identifier") [],
           GNode.mk 3 ("Identifier") []])).cdParents := by
  decide

/-- C5 (amended): statement-dep, data-dep and fun-param edges are always
mirrored on their destination; a control-dep edge is mirrored exactly when
the destination's kind is a statement kind (`control_dep_parents` exists
only on `Statement` and its subclasses) — so edges to expression
destinations, as emitted by the conditional-expression and switch-case
builders, are forward-only. -/
theorem claim_C5 :
    (∀ (st : EdgeSt) (u v : Nat),
      (u, v) ∈ (set_statement_dependency st u v).sdChildren ∧
      (u, v) ∈ (set_statement_dependency st u v).sdParents) ∧
    (∀ (st : EdgeSt) (u v : Nat), st.ddChildren = st.ddParents →
      (u, v) ∈ (set_data_dependency st u v).ddChildren ∧
      (set_data_dependency st u v).ddChildren = (set_data_dependency st u v).ddParents) ∧
    (∀ (st : EdgeSt) (u v : Nat), st.fpChildren = st.fpParents →
      (u, v) ∈ (handle_function_params st u v).fpChildren ∧
      (handle_function_params st u v).fpChildren =
        (handle_function_params st u v).fpParents) ∧
    (∀ (st : EdgeSt) (u v : Nat) (nm : String) (l : CLabel),
      (u, v, l) ∈ (set_control_dependency st u v nm l).cdChildren ∧
      ((u, v, l) ∈ (set_control_dependency st u v nm l).cdParents ↔
        (has_control_dep_parents nm = true ∨ (u, v, l) ∈ st.cdParents))) := by
  refine ⟨?_, ?_, ?_, ?_⟩
  · intro st u v
    simp [set_statement_dependency]
  · intro st u v h
    unfold set_data_dependency
    split_ifs with hmem
    · exact ⟨hmem, h⟩
    · simp [h]
  · intro st u v h
    unfold handle_function_params
    split_ifs with hmem
    · exact ⟨hmem, h⟩
    · simp [h]
  · intro st u v nm l
    unfold set_control_dependency
    constructor
    · simp
    · split_ifs with hst <;> simp_all

/-- Witness for C5: a data dependency drawn on the empty graph is mirrored. -/
theorem claim_C5_witness :
    (1, 2) ∈ (set_data_dependency EdgeSt.empty 1 2).ddChildren ∧
    (set_data_dependency EdgeSt.empty 1 2).ddChildren =
      (set_data_dependency EdgeSt.empty 1 2).ddParents :=
  claim_C5.2.1 EdgeSt.empty 1 2 rfl

/-! ### C6: the switch builder -/

theorem EdgeSt.sub_refl (E : EdgeSt) : E.sub E :=
  ⟨fun _ h => h, fun _ h => h⟩

theorem EdgeSt.sub_trans {E₁ E₂ E₃ : EdgeSt} (h₁ : E₁.sub E₂) (h₂ : E₂.sub E₃) :
    E₁.sub E₃ :=
  ⟨fun _ h => h₂.1 (h₁.1 h), fun _ h => h₂.2 (h₁.2 h)⟩

theorem sub_set_statement_dependency (st : EdgeSt) (u v : Nat) :
    st.sub (set_statement_dependency st u v) := by
  constructor <;> simp [set_statement_dependency, List.subset_append_left]

theorem sub_set_control_dependency (st : EdgeSt) (u v : Nat) (nm : String)
    (l : CLabel) : st.sub (set_control_dependency st u v nm l) := by
  constructor <;> simp [set_control_dependency, List.subset_append_left]

theorem sub_link_expression (st : EdgeSt) (c p : GNode) :
    st.sub (link_expression st c p) := by
  unfold link_expression
  split
  · exact EdgeSt.sub_refl st
  · exact sub_set_statement_dependency st p.id c.id


theorem sub_fold_true (c : GNode) :
    ∀ (l : List GNode) (st : EdgeSt), st.sub (fold_true c st l) := by
  intro l
  induction l with
  | nil => intro st; exact EdgeSt.sub_refl st
  | cons g rest ih =>
    intro st
    unfold fold_true
    simp only [List.foldl_cons]
    refine EdgeSt.sub_trans ?_ (ih _)
    split
    · exact EdgeSt.sub_refl st
    · exact sub_set_control_dependency st c.id g.id g.name CLabel.t

theorem mem_fold_true (c : GNode) :
    ∀ (l : List GNode) (st : EdgeSt) (g : GNode), g ∈ l →
      g.is_comment = false →
      (c.id, g.id, CLabel.t) ∈ (fold_true c st l).cdChildren := by
  intro l
  induction l with
  | nil => intro st g hg; simp at hg
  | cons g₀ rest ih =>
    intro st g hg hgc
    unfold fold_true
    simp only [List.foldl_cons]
    rcases List.mem_cons.mp hg with rfl | hg
    · rw [hgc]
      refine (sub_fold_true c rest _).2 ?_
      simp [set_control_dependency]
    · exact ih _ g hg hgc

theorem switch_case_cf_eq_fold (st : EdgeSt) (c : GNode) (last : Bool) :
    switch_case_cf st c last =
      match c.children, last with
      | [], _ => st
      | [only], _ => set_control_dependency st c.id only.id only.name CLabel.t
      | c0 :: c1 :: rest, true => fold_true c st (c0 :: c1 :: rest)
      | c0 :: c1 :: rest, false => fold_true c (link_expression st c0 c) (c1 :: rest) := by
  unfold switch_case_cf fold_true
  rcases c.children with _ | ⟨c0, _ | ⟨c1, rest⟩⟩ <;> cases last <;> simp

theorem sub_switch_case_cf (st : EdgeSt) (c : GNode) (last : Bool) :
    st.sub (switch_case_cf st c last) := by
  rw [switch_case_cf_eq_fold]
  rcases hc : c.children with _ | ⟨c0, _ | ⟨c1, rest⟩⟩ <;> cases last <;>
    simp only [hc]
  · exact EdgeSt.sub_refl st
  · exact EdgeSt.sub_refl st
  · exact sub_set_control_dependency ..
  · exact sub_set_control_dependency ..
  · exact EdgeSt.sub_trans (sub_link_expression st c0 c) (sub_fold_true ..)
  · exact sub_fold_true ..



theorem case_conditional_mono {E₁ E₂ : EdgeSt} (h : E₁.sub E₂) (c : GNode)
    (hc : case_conditional E₁ c) : case_conditional E₂ c := by
  unfold case_conditional at hc ⊢
  rcases hcc : c.children with _ | ⟨t, _ | ⟨g, cs⟩⟩ <;> simp only [hcc] at hc ⊢
  · exact h.2 hc
  · exact ⟨h.1 hc.1, fun g' hg' => h.2 (hc.2 g' hg')⟩

theorem case_unconditional_mono {E₁ E₂ : EdgeSt} (h : E₁.sub E₂) (c : GNode)
    (hc : case_unconditional E₁ c) : case_unconditional E₂ c :=
  fun g hg => h.2 (hc g hg)


theorem switch_case_cf_conditional (st : EdgeSt) (c : GNode)
    (hc : ∀ g ∈ c.children, g.is_comment = false) :
    case_conditional (switch_case_cf st c false) c := by
  rw [switch_case_cf_eq_fold]
  unfold case_conditional
  rcases hch : c.children with _ | ⟨c0, _ | ⟨c1, rest⟩⟩ <;> simp only [hch]
  · simp [set_control_dependency]
  · refine ⟨?_, ?_⟩
    · refine (sub_fold_true c (c1 :: rest) _).1 ?_
      have hc0 : c0.is_comment = false := hc c0 (by simp [hch])
      simp [link_expression, hc0, set_statement_dependency]
    · intro g hg
      exact mem_fold_true c (c1 :: rest) _ g hg (hc g (by simp [hch]; simp at hg; tauto))

theorem switch_case_cf_unconditional (st : EdgeSt) (c : GNode)
    (hc : ∀ g ∈ c.children, g.is_comment = false) :
    case_unconditional (switch_case_cf st c true) c := by
  rw [switch_case_cf_eq_fold]
  intro g hg
  rcases hch : c.children with _ | ⟨c0, _ | ⟨c1, rest⟩⟩ <;> simp only [hch]
  · rw [hch] at hg; simp at hg
  · rw [hch] at hg
    simp only [List.mem_singleton] at hg
    subst hg
    simp [set_control_dependency]
  · rw [hch] at hg
    exact mem_fold_true c (c0 :: c1 :: rest) st g hg (hc g (by rw [hch]; exact hg))


theorem cases_spec_mono {E₁ E₂ : EdgeSt} (h : E₁.sub E₂) :
    ∀ l, cases_spec E₁ l → cases_spec E₂ l := by
  intro l
  induction l with
  | nil => intro _; trivial
  | cons c rest ih =>
    intro hl
    rcases rest with _ | ⟨c₂, rr⟩
    · exact case_unconditional_mono h c hl
    · exact ⟨case_conditional_mono h c hl.1, h.2 hl.2.1, ih hl.2.2⟩

theorem switch_chain_spec (node : GNode) :
    ∀ (rest : List GNode) (st : EdgeSt) (prev : GNode),
      (∀ c ∈ rest, comment_free c) →
      st.sub (switch_chain st node prev rest) ∧
      (∀ r rr, rest = r :: rr →
        (prev.id, r.id, CLabel.f) ∈ (switch_chain st node prev rest).cdChildren ∧
        cases_spec (switch_chain st node prev rest) rest) := by
  intro rest
  induction rest with
  | nil =>
    intro st prev _
    exact ⟨EdgeSt.sub_refl st, fun r rr h => by simp at h⟩
  | cons c rr ih =>
    intro st prev hcf
    have hc : comment_free c := hcf c (by simp)
    have hrr : ∀ x ∈ rr, comment_free x := fun x hx => hcf x (by simp [hx])
    unfold switch_chain
    rw [if_neg (by simp [hc.1])]
    rcases rr with _ | ⟨c₂, rr₂⟩
    · -- last case of the chain
      constructor
      · exact EdgeSt.sub_trans (sub_set_control_dependency ..) (sub_switch_case_cf ..)
      · intro r rrr hr
        injection hr with hr₁ hr₂
        subst hr₁
        constructor
        · refine (sub_switch_case_cf ..).2 ?_
          simp [set_control_dependency]
        · exact switch_case_cf_unconditional _ c hc.2
    · -- intermediate case
      have ihr := ih (switch_case_cf
        (set_control_dependency st prev.id c.id c.name CLabel.f) c false) c hrr
      have hsub₀ : st.sub (switch_case_cf
          (set_control_dependency st prev.id c.id c.name CLabel.f) c false) :=
        EdgeSt.sub_trans (sub_set_control_dependency ..) (sub_switch_case_cf ..)
      have hsub : st.sub (switch_chain (switch_case_cf
          (set_control_dependency st prev.id c.id c.name CLabel.f) c false)
          node c (c₂ :: rr₂)) :=
        EdgeSt.sub_trans hsub₀ ihr.1
      refine ⟨hsub, ?_⟩
      intro r rrr hr
      injection hr with hr₁ hr₂
      subst hr₁
      obtain ⟨hedge, hspec⟩ := ihr.2 c₂ rr₂ rfl
      constructor
      · refine ihr.1.2 ?_
        refine (sub_switch_case_cf ..).2 ?_
        simp [set_control_dependency]
      · refine ⟨?_, hedge, hspec⟩
        refine case_conditional_mono ihr.1 c ?_
        exact switch_case_cf_conditional _ c hc.2

/-- C6: the claim says the last case of *every* switch with at least one
case is treated as unconditional (all its children, including the test,
become `true` control-dep targets).  But `switch_cf` calls
`switch_case_cf(switch_cases[1])` with the default `last=False` before the
loop over the remaining cases (control_flow.py line 120), so for a
single-case switch `switch(d) { case t: s; }` the only case — which is the
last case — is handled conditionally: its test `t` becomes a statement-dep
target and does not become a `true` control-dep target. -/
theorem claim_C6_counterexample :
    (2, 3) ∈ (switch_cf EdgeSt.empty
        (GNode.mk 0 ("SwitchStatement")
          [GNode.mk 1 ("Identifier") [],
           GNode.mk 2 ("SwitchCase")
             [GNode.mk 3 ("Literal") [], GNode.mk 4 ("ExpressionStatement") []]])).sdChildren ∧
    (2, 3, CLabel.t) ∉ (switch_cf EdgeSt.empty
        (GNode.mk 0 ("SwitchStatement")
          [GNode.mk 1 ("Identifier") [],
           GNode.mk 2 ("SwitchCase")
             [GNode.mk 3 ("Literal") [], GNode.mk 4 ("ExpressionStatement") []]])).cdChildren := by
  decide

/-- C6 (amended): for a switch node with discriminant `d` and case list
`cases` (no comment nodes, as the AST adapter never attaches comments):
the discriminant becomes a statement-dep target of the switch; the first
case becomes an `ε`-labelled control-dep target and is always handled
conditionally (so a single-case switch's case is *not* unconditional);
each subsequent case is chained off the previous case with a `false`
label; conditionally handled cases with at least two children get their
test as a statement-dep target and their remaining children as `true`
control-dep targets (a one-child case gets that child as a `true` target
even if it is the test); and the last case is handled unconditionally
exactly when the switch has at least two cases. -/
theorem claim_C6 (n d : GNode) (cases : List GNode)
    (hch : n.children = d :: cases)
    (hd : d.is_comment = false)
    (hcf : ∀ c ∈ cases, comment_free c) :
    (n.id, d.id) ∈ (switch_cf EdgeSt.empty n).sdChildren ∧
    (∀ c₁ cs, cases = c₁ :: cs →
      (n.id, c₁.id, CLabel.e) ∈ (switch_cf EdgeSt.empty n).cdChildren ∧
      case_conditional (switch_cf EdgeSt.empty n) c₁ ∧
      (∀ c₂ rr, cs = c₂ :: rr →
        (c₁.id, c₂.id, CLabel.f) ∈ (switch_cf EdgeSt.empty n).cdChildren ∧
        cases_spec (switch_cf EdgeSt.empty n) cs)) := by
  unfold switch_cf
  rw [hch]
  have hsd : (n.id, d.id) ∈ (link_expression EdgeSt.empty d n).sdChildren := by
    simp [link_expression, hd, set_statement_dependency]
  rcases cases with _ | ⟨c₁, cs⟩
  · exact ⟨hsd, fun c₁ cs h => by simp at h⟩
  · have hc₁ : comment_free c₁ := hcf c₁ (by simp)
    have hcs : ∀ x ∈ cs, comment_free x := fun x hx => hcf x (by simp [hx])
    set st₁ := set_control_dependency (link_expression EdgeSt.empty d n)
      n.id c₁.id c₁.name CLabel.e with hst₁
    set st₂ := switch_case_cf st₁ c₁ false with hst₂
    have hchain := switch_chain_spec n cs st₂ c₁ hcs
    have hsub₁ : (link_expression EdgeSt.empty d n).sub
        (switch_chain st₂ n c₁ cs) :=
      EdgeSt.sub_trans (sub_set_control_dependency ..)
        (EdgeSt.sub_trans (sub_switch_case_cf ..) hchain.1)
    have hsub₂ : st₁.sub (switch_chain st₂ n c₁ cs) :=
      EdgeSt.sub_trans (sub_switch_case_cf ..) hchain.1
    refine ⟨hsub₁.1 hsd, ?_⟩
    intro c₁' cs' heq
    injection heq with h₁ h₂
    subst h₁
    subst h₂
    refine ⟨?_, ?_, ?_⟩
    · refine hsub₂.2 ?_
      simp [hst₁, set_control_dependency]
    · refine case_conditional_mono hchain.1 c₁ ?_
      exact switch_case_cf_conditional st₁ c₁ hc₁.2
    · intro c₂ rr hcs'
      subst hcs'
      exact hchain.2 c₂ rr rfl

/-- Witness for C6 on a two-case switch
`switch (x) { case a: s1; default: s2; }`. -/
theorem claim_C6_witness :
    ((0 : Nat), (1 : Nat)) ∈ (switch_cf EdgeSt.empty
        (GNode.mk 0 ("SwitchStatement")
          [GNode.mk 1 ("Identifier") [],
           GNode.mk 2 ("SwitchCase")
             [GNode.mk 3 ("Literal") [], GNode.mk 4 ("ExpressionStatement") []],
           GNode.mk 5 ("SwitchCase")
             [GNode.mk 6 ("ExpressionStatement") []]])).sdChildren :=
  (claim_C6 (GNode.mk 0 ("SwitchStatement")
      [GNode.mk 1 ("Identifier") [],
       GNode.mk 2 ("SwitchCase")
         [GNode.mk 3 ("Literal") [], GNode.mk 4 ("ExpressionStatement") []],
       GNode.mk 5 ("SwitchCase")
         [GNode.mk 6 ("ExpressionStatement") []]])
    (GNode.mk 1 ("Identifier") [])
    [GNode.mk 2 ("SwitchCase")
       [GNode.mk 3 ("Literal") [], GNode.mk 4 ("ExpressionStatement") []],
     GNode.mk 5 ("SwitchCase") [GNode.mk 6 ("ExpressionStatement") []]]
    rfl rfl (by
      intro c hc
      simp only [List.mem_cons, List.not_mem_nil, or_false] at hc
      rcases hc with rfl | rfl
      · exact ⟨rfl, by decide⟩
      · exact ⟨rfl, by decide⟩)).1

/-! ### C8: the `set_value` size bound -/

mutual
theorem sumChars_le_pyReprLen : ∀ v : PyVal, sumChars v ≤ pyReprLen v
  | .vstr s => by simp [sumChars, pyReprLen]
  | .atom sz => by simp [sumChars, pyReprLen]
  | .vlist l => by
    have := sumCharsList_le_pyReprLenList l
    simp only [sumChars, pyReprLen]
    omega
  | .vdict d => by
    have := sumCharsEntries_le_pyReprLenEntries d
    simp only [sumChars, pyReprLen]
    omega

theorem sumCharsList_le_pyReprLenList :
    ∀ l : List PyVal, sumCharsList l ≤ pyReprLenList l
  | [] => by simp [sumCharsList, pyReprLenList]
  | v :: rest => by
    have h₁ := sumChars_le_pyReprLen v
    have h₂ := sumCharsList_le_pyReprLenList rest
    simp only [sumCharsList, pyReprLenList]
    omega

theorem sumCharsEntries_le_pyReprLenEntries :
    ∀ d : List (List Char × PyVal), sumCharsEntries d ≤ pyReprLenEntries d
  | [] => by simp [sumCharsEntries, pyReprLenEntries]
  | kv :: rest => by
    have h₁ := sumChars_le_pyReprLen kv.2
    have h₂ := sumCharsEntries_le_pyReprLenEntries rest
    simp only [sumCharsEntries, pyReprLenEntries]
    omega
end

/-- The counter/content invariants of `shorten_value_list`: the counter
never decreases; the retained content is bounded by the counter advance;
retained content, if any, stays strictly below `LIMIT_SIZE`; and a run that
finishes below `LIMIT_SIZE` kept everything. -/
theorem shorten_value_list_spec :
    ∀ (l : List PyVal) (c : Nat),
      c ≤ (shorten_value_list l c).2 ∧
      c + sumCharsList (shorten_value_list l c).1 ≤ (shorten_value_list l c).2 ∧
      (sumCharsList (shorten_value_list l c).1 = 0 ∨
        c + sumCharsList (shorten_value_list l c).1 < LIMIT_SIZE) ∧
      ((shorten_value_list l c).2 < LIMIT_SIZE → (shorten_value_list l c).1 = l)
  | [], c => by simp [shorten_value_list, sumCharsList]
  | .vstr s :: rest, c => by
    have ih := shorten_value_list_spec rest (c + s.length)
    simp only [shorten_value_list]
    rcases Nat.lt_or_ge (c + s.length) LIMIT_SIZE with hlt | hge
    · simp only [if_pos hlt, sumCharsList, sumChars]
      refine ⟨by omega, by omega, ?_, ?_⟩
      · rcases ih.2.2.1 with h | h
        · exact Or.inr (by omega)
        · exact Or.inr (by omega)
      · intro h
        rw [ih.2.2.2 h]
    · have hn : ¬(c + s.length < LIMIT_SIZE) := by omega
      simp only [if_neg hn]
      refine ⟨by omega, by omega, ?_, ?_⟩
      · rcases ih.2.2.1 with h | h
        · exact Or.inl h
        · exact Or.inr (by omega)
      · intro h
        exfalso
        have := ih.1
        omega
  | .atom sz :: rest, c => by
    have ih := shorten_value_list_spec rest (c + sz)
    simp only [shorten_value_list]
    rcases Nat.lt_or_ge (c + sz) LIMIT_SIZE with hlt | hge
    · simp only [if_pos hlt, sumCharsList, sumChars]
      refine ⟨by omega, by omega, ?_, ?_⟩
      · rcases ih.2.2.1 with h | h
        · exact Or.inr (by omega)
        · exact Or.inr (by omega)
      · intro h
        rw [ih.2.2.2 h]
    · have hn : ¬(c + sz < LIMIT_SIZE) := by omega
      simp only [if_neg hn]
      refine ⟨by omega, by omega, ?_, ?_⟩
      · rcases ih.2.2.1 with h | h
        · exact Or.inl h
        · exact Or.inr (by omega)
      · intro h
        exfalso
        have := ih.1
        omega
  | .vdict d :: rest, c => by
    have ih := shorten_value_list_spec rest (c + pyReprLen (.vdict d))
    have hdv := sumChars_le_pyReprLen (.vdict d)
    simp only [shorten_value_list]
    rcases Nat.lt_or_ge (c + pyReprLen (.vdict d)) LIMIT_SIZE with hlt | hge
    · simp only [if_pos hlt, sumCharsList]
      refine ⟨by omega, by omega, ?_, ?_⟩
      · rcases ih.2.2.1 with h | h
        · exact Or.inr (by omega)
        · exact Or.inr (by omega)
      · intro h
        rw [ih.2.2.2 h]
    · have hn : ¬(c + pyReprLen (.vdict d) < LIMIT_SIZE) := by omega
      simp only [if_neg hn]
      refine ⟨by omega, by omega, ?_, ?_⟩
      · rcases ih.2.2.1 with h | h
        · exact Or.inl h
        · exact Or.inr (by omega)
      · intro h
        exfalso
        have := ih.1
        omega
  | .vlist l₀ :: rest, c => by
    have ihsub := shorten_value_list_spec l₀ c
    simp only [shorten_value_list]
    rcases Nat.lt_or_ge (shorten_value_list l₀ c).2 LIMIT_SIZE with hlt | hge
    · have ih := shorten_value_list_spec rest (shorten_value_list l₀ c).2
      have hn : ¬((shorten_value_list l₀ c).2 ≥ LIMIT_SIZE) := by omega
      simp only [if_neg hn, sumCharsList, sumChars]
      refine ⟨by omega, by omega, ?_, ?_⟩
      · rcases ihsub.2.2.1 with h₀ | h₀ <;> rcases ih.2.2.1 with h₁ | h₁
        · exact Or.inl (by omega)
        · exact Or.inr (by omega)
        · exact Or.inr (by omega)
        · exact Or.inr (by omega)
      · intro h
        rw [ihsub.2.2.2 hlt, ih.2.2.2 h]
    · simp only [if_pos hge, sumCharsList, sumChars]
      refine ⟨by omega, by omega, ?_, ?_⟩
      · rcases ihsub.2.2.1 with h₀ | h₀
        · exact Or.inl (by omega)
        · exact Or.inr (by omega)
      · intro h
        exfalso
        omega

/-- C8: the claim asserts that after every `set_value` the stored value
stays within `LIMIT_SIZE` (10,000) characters.  This fails for map values:
`shorten_value_dict` always adds an entry whose value is a list or dict —
key included — before checking the budget, and keys are never truncated.
Storing `{"a"*10001: []}` keeps the 10,001-character key, so the stored
value's cumulative character count exceeds `LIMIT_SIZE`. -/
theorem claim_C8_counterexample :
    ¬ (sumChars (set_value
        (PyVal.vdict [(List.replicate 10001 'a', PyVal.vlist [])])) ≤ LIMIT_SIZE) := by
  have hrep : (List.replicate 10001 'a').length = 10001 := List.length_replicate _ _
  simp only [set_value, shorten_value_dict, shorten_value_list, hrep, LIMIT_SIZE]
  norm_num [sumChars, sumCharsEntries, sumCharsList, hrep]

/-- C8 (amended): after `set_value`, a string value is truncated to at most
`LIMIT_SIZE` characters, a list value's stored content always stays
strictly below `LIMIT_SIZE` cumulative characters, and the top-level shape
of every value is preserved; map values, however, are only best-effort
shortened: keys of entries holding nested lists/maps are counted but always
retained, so a stored map may exceed the `LIMIT_SIZE` budget (see the
counterexample). -/
theorem claim_C8 :
    (∀ s : List Char,
      set_value (.vstr s) = .vstr (s.take LIMIT_SIZE) ∧
      sumChars (set_value (.vstr s)) ≤ LIMIT_SIZE) ∧
    (∀ l : List PyVal, sumChars (set_value (.vlist l)) < LIMIT_SIZE) ∧
    (∀ v : PyVal, (set_value v).shape = v.shape) := by
  refine ⟨?_, ?_, ?_⟩
  · intro s
    refine ⟨rfl, ?_⟩
    simp only [set_value, sumChars]
    exact List.length_take_le LIMIT_SIZE s
  · intro l
    have h := shorten_value_list_spec l 0
    simp only [set_value]
    split_ifs with hge
    · simp only [sumChars]
      rcases h.2.2.1 with h₀ | h₀
      · simp [h₀, LIMIT_SIZE]
      · omega
    · simp only [sumChars]
      push_neg at hge
      have := h.2.2.2 hge
      rw [this] at h
      omega
  · intro v
    cases v <;> simp only [set_value, PyVal.shape] <;> split_ifs <;> rfl

/-! ### C7: termination and guards of the value evaluator -/


/-- C7: `get_node_computed_value` terminates on every node — it is a total
function here, with termination measured by the growth of the visited set,
which is exactly the source's guarantee that each node is entered at most
once per top-level call.  A revisited node returns its cached value when it
is a `Value` instance and `None` otherwise (js_operators.py lines 108-114);
past recursion depth 1000 the cached value (or `None`) is returned without
recursing (lines 116-120); and on the `a = b; b = a` reference cycle the
evaluation terminates, with `a` resolving to the node `b`. -/
theorem claim_C7 :
    (∀ (sz : Nat) (h : Heap sz) (n : Fin sz) (visited : Finset (Fin sz))
        (recdepth : Nat) (keep_none : Bool), n ∈ visited →
      get_node_computed_value h n visited recdepth keep_none =
        (cached_value h n, h)) ∧
    (∀ (sz : Nat) (h : Heap sz) (n : Fin sz) (visited : Finset (Fin sz))
        (recdepth : Nat) (keep_none : Bool), n ∉ visited → 1000 < recdepth →
      get_node_computed_value h n visited recdepth keep_none =
        (cached_value h n, h)) ∧
    (get_node_computed_value cycleHeap 0 ∅ 0 false).1 = some (Sum.inr 1) := by
  refine ⟨?_, ?_, ?_⟩
  · intro sz h n visited recdepth keep_none hm
    unfold get_node_computed_value
    simp [hm]
  · intro sz h n visited recdepth keep_none hm hd
    unfold get_node_computed_value
    simp [hm, hd]
  · simp [get_node_computed_value, cycleHeap, cached_value, get_node_value,
          cell_of_result, update_cell, Function.update, Finset.mem_insert]

/-- Witness for C7: revisiting node 0 of the cyclic heap returns its cached
cell (the reference to node 1). -/
theorem claim_C7_witness :
    get_node_computed_value cycleHeap 0 {0} 5 false =
      (cached_value cycleHeap 0, cycleHeap) :=
  claim_C7.1 2 cycleHeap 0 {0} 5 false (by decide)

end TaintMini
